import Mathlib

/-!
Formal model of the namethatframe repository.

The JavaScript sources are embedded shallowly:
* pure functions become Lean functions on `List`/`String`;
* in-place array mutation (`fyShuffle`) is modelled by value-passing, and
  the aliasing structure of `makeCards` by an explicit store of arrays;
* `throw` becomes `Except.error`;
* the interactive prompts of the db generator are modelled by an operator
  script supplying one answer per prompt.
-/

namespace NTF

/-! ## Movie entry model (db generator, `part_005`) -/

/-- An entry in the movie db:
`{ filePath, movieTitle, movieYear }` (all strings). -/
structure MovieEntry where
  filePath : String
  movieTitle : String
  movieYear : String
  deriving DecidableEq, Repr

/-- The movie database object: `{ lastScan, movies }`. -/
structure MovieDB where
  lastScan : Int
  movies : List MovieEntry
  deriving DecidableEq, Repr

/-- `mergeUpdates(newMovies, oldMovies)` from the db generator:
reduce over `oldMovies`, pushing the first entry of `newMovies` with the
same `filePath` when one exists, and the old entry otherwise. -/
def mergeUpdates (newMovies oldMovies : List MovieEntry) : List MovieEntry :=
  oldMovies.foldl (fun movies movie =>
    match newMovies.find? (fun nm => nm.filePath == movie.filePath) with
    | some newMovie => movies ++ [newMovie]
    | none => movies ++ [movie]) []

/-- What `mergeUpdates` pushes for a single old entry. -/
def mergeChoice (newMovies : List MovieEntry) (movie : MovieEntry) : MovieEntry :=
  (newMovies.find? (fun nm => nm.filePath == movie.filePath)).getD movie

lemma mergeUpdates_foldl_acc (newMovies : List MovieEntry) :
    ∀ (oldMovies : List MovieEntry) (acc : List MovieEntry),
      oldMovies.foldl (fun movies movie =>
        match newMovies.find? (fun nm => nm.filePath == movie.filePath) with
        | some newMovie => movies ++ [newMovie]
        | none => movies ++ [movie]) acc
      = acc ++ oldMovies.map (mergeChoice newMovies) := by
  intro oldMovies
  induction oldMovies with
  | nil => intro acc; simp
  | cons m t ih =>
    intro acc
    simp only [List.foldl_cons, List.map_cons]
    rcases hfind : newMovies.find? (fun nm => nm.filePath == m.filePath) with _ | nm
    · simp only [hfind, ih, mergeChoice, hfind, Option.getD_none]
      simp
    · simp only [hfind, ih, mergeChoice, hfind, Option.getD_some]
      simp

/-- `mergeUpdates` maps each old entry to the matching new entry (first
match by `filePath`) when present, and keeps the old entry otherwise. -/
lemma mergeUpdates_eq_map (newMovies oldMovies : List MovieEntry) :
    mergeUpdates newMovies oldMovies = oldMovies.map (mergeChoice newMovies) := by
  unfold mergeUpdates
  simpa using mergeUpdates_foldl_acc newMovies oldMovies []

lemma mergeUpdates_length (newMovies oldMovies : List MovieEntry) :
    (mergeUpdates newMovies oldMovies).length = oldMovies.length := by
  rw [mergeUpdates_eq_map]; simp

lemma mergeUpdates_getElem? (newMovies oldMovies : List MovieEntry)
    (i : Nat) (hi : i < oldMovies.length) :
    (mergeUpdates newMovies oldMovies)[i]? =
      some (mergeChoice newMovies oldMovies[i]) := by
  rw [mergeUpdates_eq_map]
  rw [List.getElem?_map]
  rw [List.getElem?_eq_getElem hi]
  rfl

/-! ## `common.js` -/

/-- `isFilenameOK(filename)`: the filename matches `\.(png|jpg|gif)$`
(it ends in one of the three dotted extensions) and its first character
is not `'.'` (an empty string fails the match). -/
def isFilenameOK (filename : String) : Bool :=
  (".png".data.isSuffixOf filename.data || ".jpg".data.isSuffixOf filename.data
      || ".gif".data.isSuffixOf filename.data)
    && !(filename.data.head? == some '.')

/-- One iteration of the Fisher-Yates swap:
`temp = a[i]; a[i] = a[j]; a[j] = temp`.  Both indices are in bounds in
every actual call (`Math.random()` lies in `[0,1)`); out-of-bounds
lookups are totalized as the identity. -/
def jsSwap (l : List α) (i j : Nat) : List α :=
  match l[i]?, l[j]? with
  | some a, some b => (l.set i b).set j a
  | _, _ => l

/-- The `while (0 !== currentIndex)` loop of `fyShuffle`.  Entering with
`currentIndex = ci + 1`, the draw `randomIndex = floor(random * currentIndex)`
is modelled by `rand (ci+1)`, then `currentIndex` is decremented and
positions `ci` and `randomIndex` are swapped. -/
def fyShuffleLoop (rand : Nat → Nat) (l : List α) : Nat → List α
  | 0 => l
  | ci + 1 => fyShuffleLoop rand (jsSwap l ci (rand (ci + 1))) ci

/-- `fyShuffle(iArray)` from `common.js`: Fisher-Yates shuffle of the
array, with the source of randomness supplied as `rand` (the value of
`Math.floor(Math.random() * currentIndex)` at each loop entry). -/
def fyShuffle (rand : Nat → Nat) (iArray : List α) : List α :=
  fyShuffleLoop rand iArray iArray.length

lemma set_getElem_self (l : List α) (i : Nat) (hi : i < l.length) :
    l.set i l[i] = l := by
  apply List.ext_getElem
  · simp
  · intro n h1 h2
    rw [List.getElem_set]
    split
    · next h => subst h; rfl
    · rfl

lemma swap_set_perm (l : List α) (i j : Nat) (hi : i < l.length) (hj : j < l.length) :
    ((l.set i l[j]).set j l[i]).Perm l := by
  classical
  rcases eq_or_ne i j with rfl | hij
  · rw [List.set_set, set_getElem_self]
  · rw [List.perm_iff_count]
    intro c
    have hj' : j < (l.set i l[j]).length := by simpa using hj
    rw [List.count_set _ _ _ _ hj', List.count_set _ _ _ _ hi]
    have hgj : (l.set i l[j])[j] = l[j] := List.getElem_set_of_ne hij _ hj'
    rw [hgj]
    have hmi : l[i] ∈ l := List.getElem_mem hi
    have hmj : l[j] ∈ l := List.getElem_mem hj
    have hci : (if (l[i] == c) = true then 1 else 0) ≤ l.count c := by
      split
      · next h =>
        have : l[i] = c := by simpa using h
        exact List.count_pos_iff.2 (this ▸ hmi)
      · exact Nat.zero_le _
    have hcj : (if (l[j] == c) = true then 1 else 0) ≤ l.count c := by
      split
      · next h =>
        have : l[j] = c := by simpa using h
        exact List.count_pos_iff.2 (this ▸ hmj)
      · exact Nat.zero_le _
    omega

lemma jsSwap_perm (l : List α) (i j : Nat) : (jsSwap l i j).Perm l := by
  unfold jsSwap
  rcases hji : l[i]? with _ | a
  · exact List.Perm.refl l
  · rcases hjj : l[j]? with _ | b
    · exact List.Perm.refl l
    · simp only []
      have hi : i < l.length := (List.getElem?_eq_some.1 hji).1
      have hj : j < l.length := (List.getElem?_eq_some.1 hjj).1
      have ha : a = l[i] := by
        have := List.getElem?_eq_getElem hi
        rw [hji] at this; exact Option.some.inj this
      have hb : b = l[j] := by
        have := List.getElem?_eq_getElem hj
        rw [hjj] at this; exact Option.some.inj this
      rw [ha, hb]
      exact swap_set_perm l i j hi hj

lemma fyShuffleLoop_perm (rand : Nat → Nat) :
    ∀ (ci : Nat) (l : List α), (fyShuffleLoop rand l ci).Perm l := by
  intro ci
  induction ci with
  | zero => intro l; exact List.Perm.refl l
  | succ n ih =>
    intro l
    exact (ih (jsSwap l n (rand (n + 1)))).trans (jsSwap_perm l n (rand (n + 1)))

/-- `fyShuffle` returns a permutation of its input for every source of
randomness. -/
lemma fyShuffle_perm (rand : Nat → Nat) (l : List α) : (fyShuffle rand l).Perm l :=
  fyShuffleLoop_perm rand l.length l

/-! ## `card-pdf.js` -/

/-- A size, `{ w, h }`. -/
structure Size where
  w : Nat
  h : Nat
  deriving DecidableEq, Repr

/-- A position, `{ x, y }`. -/
structure Pos where
  x : Nat
  y : Nat
  deriving DecidableEq, Repr

/-- A grid cell rectangle as pushed by `calculateGrids`:
`{ x, y, w, h, fillColor }` with `fillColor` set only on the title row. -/
structure Rect where
  x : Nat
  y : Nat
  w : Nat
  h : Nat
  fillColor : Option String
  deriving DecidableEq, Repr

def marginSize : Nat := 36
def spaceBetweenGrids : Nat := 18
def cellSize : Size := ⟨108, 58⟩
def origin : Pos := ⟨marginSize, marginSize⟩
def cols : Nat := 5
def rows : Nat := 6
def boxHeight : Nat := rows * cellSize.h
def boxWidth : Nat := cols * cellSize.w
def bottomGridOffset : Nat := boxHeight + spaceBetweenGrids
def titleFillColor : String := "#ddd"

/-- The module-level mutable arrays `topGrid` and `bottomGrid`.  At
process start both are empty. -/
structure GridState where
  topGrid : List Rect
  bottomGrid : List Rect
  deriving DecidableEq, Repr

/-- The rectangle `calculateGrids` pushes onto `topGrid` for `(row, col)`. -/
def topCell (row col : Nat) : Rect :=
  ⟨origin.x + col * cellSize.w, origin.y + row * cellSize.h, cellSize.w, cellSize.h,
    if row = 0 then some titleFillColor else none⟩

/-- The rectangle `calculateGrids` pushes onto `bottomGrid` for `(row, col)`. -/
def bottomCell (row col : Nat) : Rect :=
  ⟨origin.x + col * cellSize.w, origin.y + bottomGridOffset + row * cellSize.h,
    cellSize.w, cellSize.h, if row = 0 then some titleFillColor else none⟩

/-- `calculateGrids()`: the nested `for` loops push one cell per
`(row, col)` onto each of the module-level arrays. -/
def calculateGrids (s : GridState) : GridState :=
  (List.range rows).foldl (fun s row =>
    (List.range cols).foldl (fun s col =>
      { topGrid := s.topGrid ++ [topCell row col],
        bottomGrid := s.bottomGrid ++ [bottomCell row col] }) s) s

/-- The batch of top cells appended by one `calculateGrids()` call. -/
def topGridCells : List Rect :=
  (List.range rows).flatMap (fun row => (List.range cols).map (fun col => topCell row col))

/-- The batch of bottom cells appended by one `calculateGrids()` call. -/
def bottomGridCells : List Rect :=
  (List.range rows).flatMap (fun row => (List.range cols).map (fun col => bottomCell row col))

lemma foldl_push_cols (f g : Nat → Rect) (xs : List Nat) :
    ∀ s : GridState,
      xs.foldl (fun s c =>
        { topGrid := s.topGrid ++ [f c], bottomGrid := s.bottomGrid ++ [g c] }) s
      = ⟨s.topGrid ++ xs.map f, s.bottomGrid ++ xs.map g⟩ := by
  induction xs with
  | nil => intro s; simp
  | cons c t ih => intro s; simp [ih]

lemma calculateGrids_eq (s : GridState) :
    calculateGrids s = ⟨s.topGrid ++ topGridCells, s.bottomGrid ++ bottomGridCells⟩ := by
  unfold calculateGrids topGridCells bottomGridCells
  generalize List.range rows = rs
  induction rs generalizing s with
  | nil => simp
  | cons r t ih =>
    simp only [List.foldl_cons, List.flatMap_cons]
    rw [foldl_push_cols (topCell r) (bottomCell r) (List.range cols) s]
    rw [ih]
    simp

/-- Two rectangles overlap when their interiors intersect. -/
def rectsOverlap (r1 r2 : Rect) : Bool :=
  decide (r1.x < r2.x + r2.w) && decide (r2.x < r1.x + r1.w) &&
  decide (r1.y < r2.y + r2.h) && decide (r2.y < r1.y + r1.h)

/-- No two distinct rectangles of the list overlap. -/
def pairwiseNonOverlap : List Rect → Bool
  | [] => true
  | r :: t => t.all (fun r2 => !rectsOverlap r r2) && pairwiseNonOverlap t

/-- The `fillColor` title flag is set exactly on the first `cols` cells
(row 0) of a 30-cell grid. -/
def titleFlagsRowZero (g : List Rect) : Bool :=
  (List.range g.length).all (fun k =>
    ((g[k]?.map (fun r => r.fillColor.isSome)).getD false) == decide (k < cols))

/-- One `doc.text(content, x, y)` call issued by `fillBoxes` for one grid
cell: the cell's grid index, the rectangle looked up in the grid array,
and the string drawn (`none` models a JavaScript `undefined` read past
the end of the data array). -/
structure CellDraw where
  gridIndex : Nat
  rect : Option Rect
  content : Option String
  deriving DecidableEq, Repr

def rowLimit : Nat := rows - 1

/-- The half of `fillBoxes` addressing one grid (the loop body issues the
same computation for the top and the bottom grid): rows 1..5, cols 0..4,
`gridIndex = row * rowLimit + col`, `dataIndex = (row-1) * rowLimit + col`;
cell 17 gets the literal "Free Space" when `useFree` is set. -/
def fillBoxesGrid (grid : List Rect) (data : List String) (useFree : Bool) : List CellDraw :=
  (List.range' 1 (rows - 1)).flatMap (fun row =>
    (List.range cols).map (fun col =>
      let gridIndex := row * rowLimit + col
      let dataIndex := (row - 1) * rowLimit + col
      if useFree && gridIndex == 17 then
        ⟨gridIndex, grid[gridIndex]?, some "Free Space"⟩
      else
        ⟨gridIndex, grid[gridIndex]?, data[dataIndex]?⟩))

/-- One page of the generated PDF: a top card and a bottom card sharing a
title (the geometry of `drawBoxes`/`cardTitles` is the external
renderer's concern; the cell contents are recorded). -/
structure Page where
  title : String
  topFills : List CellDraw
  bottomFills : List CellDraw
  deriving DecidableEq, Repr

/-- Each page carries two cards (one per grid). -/
def docCardCount (pages : List Page) : Nat := 2 * pages.length

/-- The per-page loop of `makeCards`.  The working pool lives in the
store cell `shuffledRef`; each page re-shuffles the entire pool in place,
slices entries 0-24 for the top card and 25-49 for the bottom card, and
fills both grids.  `rand pageIdx` is the source of randomness used by
that page's shuffle. -/
def makeCardsLoop (rand : Nat → Nat → Nat) (useFree : Bool) (title : String)
    (grids : GridState) (shuffledRef : Nat) :
    Nat → Nat → List (List String) → List (List String) × List Page
  | _, 0, store => (store, [])
  | pageIdx, remaining + 1, store =>
    let shuffled := fyShuffle (rand pageIdx) (store[shuffledRef]?.getD [])
    let store' := store.set shuffledRef shuffled
    let topData := shuffled.take 25
    let bottomData := (shuffled.drop 25).take 25
    let page : Page := ⟨title, fillBoxesGrid grids.topGrid topData useFree,
      fillBoxesGrid grids.bottomGrid bottomData useFree⟩
    let out := makeCardsLoop rand useFree title grids shuffledRef (pageIdx + 1) remaining store'
    (out.1, page :: out.2)

/-- `makeCards(num, options, useFree, title)`.

JavaScript arrays are heap references: the store holds the arrays and
`options` is either `some ref` (an array argument) or `none` (a
non-array value, failing `Array.isArray`).  `options.slice()` allocates
a fresh cell at the end of the store; the in-place shuffles of the loop
write only that cell.  A `throw` is `Except.error`; on error no document
is produced. -/
def makeCards (rand : Nat → Nat → Nat) (store : List (List String)) (num : Int)
    (options : Option Nat) (useFree : Bool) (title : String) (grids : GridState) :
    Except String (List (List String) × GridState × List Page) :=
  if num < 2 then Except.error "makeCards: Must generate at least 2 bingo cards"
  else
    let num := if num % 2 ≠ 0 then num + 1 else num
    match options with
    | none => Except.error "makeCards: options is not an array"
    | some optionsRef =>
      match store[optionsRef]? with
      | none => Except.error "options is not an array"
      | some optionsArr =>
        if optionsArr.length < 200 then
          Except.error "makeCards: must have at least 200 options"
        else
          let grids' := calculateGrids grids
          let shuffledRef := store.length
          let store' := store ++ [optionsArr]
          let pages := (num / 2).toNat
          let out := makeCardsLoop rand useFree title grids' shuffledRef 0 pages store'
          Except.ok (out.1, grids', out.2)

lemma makeCardsLoop_pages_length (rand : Nat → Nat → Nat) (useFree : Bool) (title : String)
    (grids : GridState) (shuffledRef : Nat) :
    ∀ (fuel pageIdx : Nat) (store : List (List String)),
      ((makeCardsLoop rand useFree title grids shuffledRef pageIdx fuel store).2).length
        = fuel := by
  intro fuel
  induction fuel with
  | zero => intro pageIdx store; rfl
  | succ n ih =>
    intro pageIdx store
    simp only [makeCardsLoop, List.length_cons]
    rw [ih]

lemma makeCardsLoop_store_frame (rand : Nat → Nat → Nat) (useFree : Bool) (title : String)
    (grids : GridState) (shuffledRef : Nat) :
    ∀ (fuel pageIdx : Nat) (store : List (List String)) (k : Nat), k ≠ shuffledRef →
      ((makeCardsLoop rand useFree title grids shuffledRef pageIdx fuel store).1)[k]?
        = store[k]? := by
  intro fuel
  induction fuel with
  | zero => intro pageIdx store k _; rfl
  | succ n ih =>
    intro pageIdx store k hk
    simp only [makeCardsLoop]
    rw [ih (pageIdx + 1) _ k hk]
    exact List.getElem?_set_ne (fun h => hk h.symm)

lemma makeCardsLoop_pages_shape (rand : Nat → Nat → Nat) (useFree : Bool) (title : String)
    (grids : GridState) (shuffledRef : Nat) :
    ∀ (fuel pageIdx : Nat) (store : List (List String)) (p : Page),
      p ∈ (makeCardsLoop rand useFree title grids shuffledRef pageIdx fuel store).2 →
      ∃ topData bottomData,
        p = ⟨title, fillBoxesGrid grids.topGrid topData useFree,
          fillBoxesGrid grids.bottomGrid bottomData useFree⟩ := by
  intro fuel
  induction fuel with
  | zero => intro pageIdx store p hp; simp [makeCardsLoop] at hp
  | succ n ih =>
    intro pageIdx store p hp
    simp only [makeCardsLoop, List.mem_cons] at hp
    rcases hp with rfl | hp
    · exact ⟨_, _, rfl⟩
    · exact ih (pageIdx + 1) _ p hp

/-- Under valid arguments `makeCards` reduces to the page loop run
against `calculateGrids grids` and the freshly sliced pool. -/
lemma makeCards_valid_eq (rand : Nat → Nat → Nat) (store : List (List String)) (num : Int)
    (ref : Nat) (pool : List String) (useFree : Bool) (title : String) (grids : GridState)
    (hnum : 2 ≤ num) (hpool : store[ref]? = some pool) (hlen : 200 ≤ pool.length) :
    makeCards rand store num (some ref) useFree title grids =
      Except.ok
        ((makeCardsLoop rand useFree title (calculateGrids grids) store.length 0
            (((if num % 2 ≠ 0 then num + 1 else num) / 2).toNat) (store ++ [pool])).1,
          calculateGrids grids,
          (makeCardsLoop rand useFree title (calculateGrids grids) store.length 0
            (((if num % 2 ≠ 0 then num + 1 else num) / 2).toNat) (store ++ [pool])).2) := by
  unfold makeCards
  rw [if_neg (by omega)]
  simp only [hpool]
  rw [if_neg (by omega)]

/-- A 24-element data pool, the length `fillBoxes`'s own doc comment
prescribes for `useFree = true`. -/
def pool24 : List String := (List.range 24).map (fun n => toString n)

/-! ## db generator (`part_005`): reconciliation -/

/-- `path.parse(p).base`: the component after the last `/`. -/
def pathBase (p : String) : String :=
  ⟨(p.data.reverse.takeWhile (fun c => !(c == '/'))).reverse⟩

/-- `path.parse(p).name`: the base without its extension, the extension
starting at the last `.` unless that dot is the base's first character. -/
def nameOfBase (cs : List Char) : List Char :=
  match ((List.range cs.length).filter
      (fun i => decide (1 ≤ i) && (cs[i]? == some '.'))).getLast? with
  | some i => cs.take i
  | none => cs

def pathName (p : String) : String := ⟨nameOfBase (pathBase p).data⟩

/-- `removeDeletedFilesFromDB(movieDB, fileList)`: keep, in order, the DB
entries whose `filePath` occurs in the scanned file list. -/
def removeDeletedFilesFromDB (movieDB : MovieDB) (fileList : List String) :
    List MovieEntry :=
  movieDB.movies.foldl (fun movies cur =>
    if fileList.contains cur.filePath then movies ++ [cur] else movies) []

/-- `makeMovieEntry(filePath, movieTitle, movieYear)`.  The
`fs.statSync` existence check queries the file system and is supplied as
`statOk`; the emptiness and filename checks are the source's. -/
def makeMovieEntry (statOk : String → Bool) (filePath : String)
    (movieTitle : String := "") (movieYear : String := "") : Except String MovieEntry :=
  if filePath = "" then Except.error "makeMovieEntry: filePath was empty"
  else if !statOk filePath then Except.error "makeMovieEntry: stat failed"
  else if !isFilenameOK (pathBase filePath) then
    Except.error "makeMovieEntry: not a filename we like"
  else Except.ok ⟨filePath, movieTitle, movieYear⟩

/-- `addNewFilesToDB(movieDB, fileList)`: append a blank entry for every
scanned path not already known by `filePath`; a throwing
`makeMovieEntry` is logged and the file skipped. -/
def addNewFilesToDB (statOk : String → Bool) (movieDB : MovieDB)
    (fileList : List String) : List MovieEntry :=
  let filesWeKnow := movieDB.movies.map (fun movie => movie.filePath)
  let newMovies := fileList.foldl (fun acc filePath =>
    if !(filesWeKnow.contains filePath) then
      match makeMovieEntry statOk filePath with
      | Except.ok e => acc ++ [e]
      | Except.error _ => acc
    else acc) []
  movieDB.movies ++ newMovies

/-- The two reconciliation steps of `main`, in order
(`movieDB.movies` is replaced between the calls). -/
def reconcile (statOk : String → Bool) (movieDB : MovieDB) (fileList : List String) :
    List MovieEntry :=
  let kept := removeDeletedFilesFromDB movieDB fileList
  addNewFilesToDB statOk { movieDB with movies := kept } fileList

/-! ## db generator: `guessDetailsFromFilename` and its `titleCase`

The db generator's `require('./common')` resolves to the common module
bundled with it, whose `titleCase` capitalizes every `\w\S*` word and
then turns `_` into `'`. -/

/-- The core of the JavaScript `\s` class (the inputs here are ASCII). -/
def jsWhitespace (c : Char) : Bool :=
  c == ' ' || c == '\t' || c == '\n' || c == '\r' || c == '\x0b' || c == '\x0c'

/-- `\w`. -/
def isWordChar (c : Char) : Bool := c.isAlphanum || c == '_'

/-- `\S`. -/
def isNonSpace (c : Char) : Bool := !jsWhitespace c

/-- The global replace of `/\w\S*/` by capitalize, as one left-to-right
scan: a match starts at a word character outside a match (its first
character is uppercased) and continues through non-space characters
(lowercased). -/
def titleCaseScan : Bool → List Char → List Char
  | _, [] => []
  | false, c :: t =>
    if isWordChar c then c.toUpper :: titleCaseScan true t
    else c :: titleCaseScan false t
  | true, c :: t =>
    if isNonSpace c then c.toLower :: titleCaseScan true t
    else c :: titleCaseScan false t

/-- `titleCase(txt)` of the db generator's common module:
capitalize each `\w\S*` word, then replace `_` with `'`. -/
def titleCase (txt : String) : String :=
  ⟨(titleCaseScan false txt.data).map (fun c => if c == '_' then '\'' else c)⟩

/-- The class `[\s\-\(\b]` (inside a character class, `\b` is the
backspace character `\x08`). -/
def sepClass1 (c : Char) : Bool :=
  jsWhitespace c || c == '-' || c == '(' || c == '\x08'

/-- The class `[\s\-\)\b]`. -/
def sepClass2 (c : Char) : Bool :=
  jsWhitespace c || c == '-' || c == ')' || c == '\x08'

/-- Match `(\d{4})[\s\-\)\b]?$` against the whole remaining input:
four digits, an optional (greedy) trailing separator, end of input.
Returns (whole match, captured digits). -/
def digits4end : List Char → Option (List Char × List Char)
  | d1 :: d2 :: d3 :: d4 :: tail =>
    if d1.isDigit && d2.isDigit && d3.isDigit && d4.isDigit then
      match tail with
      | [] => some ([d1, d2, d3, d4], [d1, d2, d3, d4])
      | [e] =>
        if sepClass2 e then some ([d1, d2, d3, d4, e], [d1, d2, d3, d4]) else none
      | _ => none
    else none
  | _ => none

/-- Match the year pattern anchored at this start position: the leading
separator class is optional and greedy, with backtracking to the
separator-less alternative. -/
def matchYearFrom (cs : List Char) : Option (List Char × List Char) :=
  match cs with
  | c :: t =>
    if sepClass1 c then
      match digits4end t with
      | some m => some (c :: m.1, m.2)
      | none => digits4end cs
    else digits4end cs
  | [] => none

/-- `parsed.name.match(/[\s\-\(\b]?(\d{4})[\s\-\)\b]?$/)`: the engine
tries successive start positions left to right. -/
def yearSearch : List Char → Option (List Char × List Char)
  | [] => none
  | c :: t =>
    match matchYearFrom (c :: t) with
    | some m => some m
    | none => yearSearch t

/-- `String.prototype.trim()`. -/
def jsTrim (s : String) : String :=
  ⟨((s.data.dropWhile jsWhitespace).reverse.dropWhile jsWhitespace).reverse⟩

/-- `movieTitle.match(/([^\(]+)/)`: the first maximal run of non-`(`
characters, if any. -/
def firstNonParenRun (cs : List Char) : Option (List Char) :=
  match cs.dropWhile (fun c => c == '(') with
  | [] => none
  | c :: t => some ((c :: t).takeWhile (fun c2 => !(c2 == '(')))

/-- `guessDetailsFromFilename(movie)`: parse a trailing 4-digit year out
of the filename stem, use the part before it (trimmed, up to a `(`,
title-cased) as the title; with no year match the whole stem is the
title. -/
def guessDetailsFromFilename (movie : MovieEntry) : MovieEntry :=
  let parsedName := pathName movie.filePath
  let step1 :=
    match yearSearch parsedName.data with
    | some m =>
      { movie with
        movieYear := ⟨m.2⟩,
        movieTitle := jsTrim ⟨parsedName.data.take (parsedName.data.length - m.1.length)⟩ }
    | none => { movie with movieTitle := parsedName }
  match firstNonParenRun step1.movieTitle.data with
  | some run => { step1 with movieTitle := titleCase (jsTrim ⟨run⟩) }
  | none => step1

/-! ## db generator: edit session -/

/-- The operator's answer to one `askIfChangesNeeded` prompt:
`yes` (edit the two fields with the given inputs), `no` (keep), or
`quit`.  The fourth choice, `Ask TMDB`, consults the external
title-lookup collaborator and is outside the edit-session claims. -/
inductive EditAction where
  | yes (movieTitle movieYear : String)
  | no
  | quit
  deriving DecidableEq, Repr

/-- `QuitException(movieList)`: the deliberate abort carrying the edits
collected so far (`movieList.slice()` is a copy; lists are values here). -/
structure QuitException where
  movieList : List MovieEntry
  deriving DecidableEq, Repr

/-- `askIfChangesNeeded(movie)` under the operator's scripted answer:
`yes` runs `promptFileChanges` (`Object.assign({}, movie, fields)`),
`no` returns the movie, `quit` throws `QuitException([movie])`. -/
def askIfChangesNeeded (movie : MovieEntry) (action : EditAction) :
    Except QuitException MovieEntry :=
  match action with
  | EditAction.yes t yr => Except.ok { movie with movieTitle := t, movieYear := yr }
  | EditAction.no => Except.ok movie
  | EditAction.quit => Except.error ⟨[movie]⟩

/-- The `for` loop of `fillInMovieDetails`: visit the entries in order
(index `i`), guess details from the filename, prompt; a `QuitException`
is re-thrown with the edits so far prepended to its payload.  (The
`writeToBackupFile` call after each completed edit is file output.) -/
def fillInMovieDetailsLoop (actions : Nat → EditAction) :
    Nat → List MovieEntry → List MovieEntry → Except QuitException (List MovieEntry)
  | _, [], newMovies => Except.ok newMovies
  | i, m :: rest, newMovies =>
    match askIfChangesNeeded (guessDetailsFromFilename m) (actions i) with
    | Except.ok e => fillInMovieDetailsLoop actions (i + 1) rest (newMovies ++ [e])
    | Except.error ex => Except.error ⟨newMovies ++ ex.movieList⟩

/-- `fillInMovieDetails(movies)` with the operator script `actions`. -/
def fillInMovieDetails (actions : Nat → EditAction) (movies : List MovieEntry) :
    Except QuitException (List MovieEntry) :=
  fillInMovieDetailsLoop actions 0 movies []

/-- `!movie.movieTitle || !movie.movieYear`: a string is falsy exactly
when empty. -/
def isIncomplete (m : MovieEntry) : Bool := m.movieTitle == "" || m.movieYear == ""

/-- The incomplete-entries pass of `main`: filter the incomplete
entries, run the edit loop, merge the result (or the quit payload) back
into the full list and persist it with `writeMovieDB`.  The second
component is the process exit code: the quit path is caught and routed
through `hardExit` (`process.exit()` with no argument, code 0), the
normal path resolves `main` (`process.exit(0)`). -/
def sessionRun (actions : Nat → EditAction) (dbMovies : List MovieEntry) :
    List MovieEntry × Nat :=
  let newMovies := dbMovies.filter isIncomplete
  match fillInMovieDetails actions newMovies with
  | Except.ok updated => (mergeUpdates updated dbMovies, 0)
  | Except.error ex => (mergeUpdates ex.movieList dbMovies, 0)

/-- The operator script of the claim: complete `k` edits (with inputs
`t i`, `y i`), then choose quit at entry `k`. -/
def editsThenQuit (t y : Nat → String) (k : Nat) : Nat → EditAction :=
  fun i => if i < k then EditAction.yes (t i) (y i) else EditAction.quit

/-- The entries produced by the first `n` scripted edits over `movies`,
the script index starting at `i`. -/
def editedEntries (t y : Nat → String) : Nat → List MovieEntry → Nat → List MovieEntry
  | _, _, 0 => []
  | _, [], _ + 1 => []
  | i, m :: rest, n + 1 => ⟨m.filePath, t i, y i⟩ :: editedEntries t y (i + 1) rest n

/-- A concrete database of two incomplete entries. -/
def dbC1 : List MovieEntry :=
  [⟨"stills/alpha 1999.jpg", "", ""⟩, ⟨"stills/beta 2001.jpg", "", ""⟩]

end NTF

/-- C3: `makeCards(numCards, optionPool, useFree, title)` throws exactly
when `numCards < 2`, or `optionPool` is not an array, or the pool has
fewer than 200 elements; an error carries no document. -/
theorem C3_makeCards_validation (rand : Nat → Nat → Nat) (store : List (List String))
    (num : Int) (options : Option Nat) (useFree : Bool) (title : String)
    (grids : NTF.GridState)
    (hvalid : ∀ r, options = some r → r < store.length) :
    (∃ e, NTF.makeCards rand store num options useFree title grids = Except.error e) ↔
      (num < 2 ∨ options = none ∨
        ∃ r pool, options = some r ∧ store[r]? = some pool ∧ pool.length < 200) := by
  by_cases h2 : num < 2
  · refine ⟨fun _ => Or.inl h2,
      fun _ => ⟨"makeCards: Must generate at least 2 bingo cards", ?_⟩⟩
    unfold NTF.makeCards
    rw [if_pos h2]
  · rcases options with _ | r
    · refine ⟨fun _ => Or.inr (Or.inl rfl),
        fun _ => ⟨"makeCards: options is not an array", ?_⟩⟩
      unfold NTF.makeCards
      rw [if_neg h2]
    · have hr : r < store.length := hvalid r rfl
      have hpool : store[r]? = some store[r] := List.getElem?_eq_getElem hr
      by_cases hlen : (store[r]).length < 200
      · refine ⟨fun _ => Or.inr (Or.inr ⟨r, store[r], rfl, hpool, hlen⟩),
          fun _ => ⟨"makeCards: must have at least 200 options", ?_⟩⟩
        unfold NTF.makeCards
        rw [if_neg h2]
        simp only [hpool]
        rw [if_pos hlen]
      · have hok := NTF.makeCards_valid_eq rand store num r store[r] useFree title grids
          (by omega) hpool (by omega)
        constructor
        · intro he
          rcases he with ⟨e, he⟩
          rw [hok] at he
          exact Except.noConfusion he
        · intro hrhs
          rcases hrhs with h | h | ⟨r', pool', hr', hpool', hlen'⟩
          · exact absurd h h2
          · exact absurd h (by simp)
          · rcases Option.some.inj hr' with rfl
            rw [hpool] at hpool'
            rcases Option.some.inj hpool' with rfl
            exact absurd hlen' hlen

/-- Witness for C3: `generate(2, pool_of_199, ...)` fails. -/
theorem C3_witness :
    ∃ e, NTF.makeCards (fun _ _ => 0) [List.replicate 199 "x"] 2 (some 0) true "MOVIE"
      ⟨[], []⟩ = Except.error e := by
  refine (C3_makeCards_validation (fun _ _ => 0) [List.replicate 199 "x"] 2 (some 0) true
    "MOVIE" ⟨[], []⟩ ?_).2 ?_
  · intro r hr
    rcases Option.some.inj hr with rfl
    decide
  · exact Or.inr (Or.inr ⟨0, List.replicate 199 "x", rfl, rfl, by
      rw [List.length_replicate]; omega⟩)

/-- C4: for every valid request the number of cards generated is even:
`numCards` cards when `numCards` is even, `numCards + 1` when odd, two
cards per page over `numCards/2` (rounded-up) pages. -/
theorem C4_makeCards_even_count (rand : Nat → Nat → Nat) (store : List (List String))
    (num : Int) (ref : Nat) (pool : List String) (useFree : Bool) (title : String)
    (grids : NTF.GridState)
    (hnum : 2 ≤ num) (hpool : store[ref]? = some pool) (hlen : 200 ≤ pool.length) :
    ∃ store2 pages,
      NTF.makeCards rand store num (some ref) useFree title grids =
        Except.ok (store2, NTF.calculateGrids grids, pages)
      ∧ pages.length = ((if num % 2 = 0 then num else num + 1) / 2).toNat
      ∧ NTF.docCardCount pages = (if num % 2 = 0 then num else num + 1).toNat
      ∧ NTF.docCardCount pages % 2 = 0 := by
  have hok := NTF.makeCards_valid_eq rand store num ref pool useFree title grids hnum hpool hlen
  refine ⟨_, _, hok, ?_, ?_, ?_⟩
  · rw [NTF.makeCardsLoop_pages_length]
    rcases Int.emod_two_eq_zero_or_one num with h | h
    · rw [if_neg (by omega : ¬ (num % 2 ≠ 0)), if_pos h]
    · rw [if_pos (by omega : num % 2 ≠ 0), if_neg (by omega : ¬ (num % 2 = 0))]
  · unfold NTF.docCardCount
    rw [NTF.makeCardsLoop_pages_length]
    rcases Int.emod_two_eq_zero_or_one num with h | h
    · rw [if_neg (by omega : ¬ (num % 2 ≠ 0)), if_pos h]
      omega
    · rw [if_pos (by omega : num % 2 ≠ 0), if_neg (by omega : ¬ (num % 2 = 0))]
      omega
  · unfold NTF.docCardCount
    omega

/-- Witness for C4: `generate(3, pool_of_200, ...)` gives 4 cards on 2
pages. -/
theorem C4_witness :
    ∃ store2 pages,
      NTF.makeCards (fun _ _ => 0) [List.replicate 200 "x"] 3 (some 0) true "MOVIE"
        ⟨[], []⟩ = Except.ok (store2, NTF.calculateGrids ⟨[], []⟩, pages)
      ∧ pages.length = 2 ∧ NTF.docCardCount pages = 4 := by
  obtain ⟨s2, pg, h1, h2, h3, _⟩ := C4_makeCards_even_count (fun _ _ => 0)
    [List.replicate 200 "x"] 3 0 (List.replicate 200 "x") true "MOVIE" ⟨[], []⟩
    (by decide) rfl (by rw [List.length_replicate])
  refine ⟨s2, pg, h1, ?_, ?_⟩
  · rw [h2]; decide
  · rw [h3]; decide

/-- C10: a successful `makeCards` call leaves the caller's `options`
array untouched: the shuffles permute a private `slice()` copy living in
a fresh store cell, never the argument array. -/
theorem C10_makeCards_no_mutation (rand : Nat → Nat → Nat) (store : List (List String))
    (num : Int) (ref : Nat) (pool : List String) (useFree : Bool) (title : String)
    (grids : NTF.GridState)
    (hnum : 2 ≤ num) (hpool : store[ref]? = some pool) (hlen : 200 ≤ pool.length) :
    ∃ store2 grids2 pages,
      NTF.makeCards rand store num (some ref) useFree title grids =
        Except.ok (store2, grids2, pages)
      ∧ store2[ref]? = some pool := by
  have hok := NTF.makeCards_valid_eq rand store num ref pool useFree title grids hnum hpool hlen
  have hr : ref < store.length := (List.getElem?_eq_some.1 hpool).1
  refine ⟨_, _, _, hok, ?_⟩
  rw [NTF.makeCardsLoop_store_frame _ _ _ _ _ _ _ _ ref (by omega)]
  rw [List.getElem?_append, if_pos hr]
  exact hpool

/-- Witness for C10 at a concrete valid call. -/
theorem C10_witness :
    ∃ store2 grids2 pages,
      NTF.makeCards (fun _ _ => 0) [List.replicate 200 "x"] 2 (some 0) true "MOVIE"
        ⟨[], []⟩ = Except.ok (store2, grids2, pages)
      ∧ store2[0]? = some (List.replicate 200 "x") :=
  C10_makeCards_no_mutation (fun _ _ => 0) [List.replicate 200 "x"] 2 0
    (List.replicate 200 "x") true "MOVIE" ⟨[], []⟩ (by decide) rfl
    (by rw [List.length_replicate])

/-- C5: for every finite array `S` and every value of the supplied source
of randomness, `fyShuffle(S)` is a permutation of `S`: same length and
same multiset of elements. -/
theorem C5_fyShuffle_perm {α : Type} (rand : Nat → Nat) (l : List α) :
    (NTF.fyShuffle rand l).Perm l
    ∧ (NTF.fyShuffle rand l).length = l.length
    ∧ (↑(NTF.fyShuffle rand l) : Multiset α) = (↑l : Multiset α) := by
  have h := NTF.fyShuffle_perm rand l
  exact ⟨h, h.length_eq, Quotient.sound h⟩

/-- C2: `merge(editedSubset, fullOriginalList)` is pure; for every entry of
the original list the output holds, at that entry's original position, the
edited entry with the same `filePath` when one exists and the original
entry unchanged otherwise; edited entries whose `filePath` does not occur
in the original list never appear; and the spec's concrete example holds. -/
theorem C2_mergeUpdates_spec (newMovies oldMovies : List NTF.MovieEntry) :
    (NTF.mergeUpdates newMovies oldMovies).length = oldMovies.length
    ∧ (∀ i, (hi : i < oldMovies.length) →
        (NTF.mergeUpdates newMovies oldMovies)[i]? =
          some ((newMovies.find? (fun nm => nm.filePath == oldMovies[i].filePath)).getD
            oldMovies[i]))
    ∧ (∀ e : NTF.MovieEntry, e.filePath ∉ oldMovies.map (fun m => m.filePath) →
        e ∉ NTF.mergeUpdates newMovies oldMovies)
    ∧ NTF.mergeUpdates [⟨"a", "X", "1999"⟩] [⟨"a", "", ""⟩, ⟨"b", "Y", "2001"⟩]
        = [⟨"a", "X", "1999"⟩, ⟨"b", "Y", "2001"⟩] := by
  refine ⟨NTF.mergeUpdates_length newMovies oldMovies, ?_, ?_, by decide⟩
  · intro i hi
    exact NTF.mergeUpdates_getElem? newMovies oldMovies i hi
  · intro e he hmem
    rw [NTF.mergeUpdates_eq_map] at hmem
    rcases List.mem_map.1 hmem with ⟨m, hm, hme⟩
    unfold NTF.mergeChoice at hme
    rcases hfind : newMovies.find? (fun nm => nm.filePath == m.filePath) with _ | nm
    · rw [hfind, Option.getD_none] at hme
      exact he (hme ▸ List.mem_map_of_mem (fun x => x.filePath) hm)
    · rw [hfind, Option.getD_some] at hme
      have hp := List.find?_some hfind
      have : e.filePath = m.filePath := by
        subst hme; exact of_decide_eq_true hp
      exact he (this ▸ List.mem_map_of_mem (fun x => x.filePath) hm)

/-- Witness for C2 at the spec's concrete inputs. -/
theorem C2_witness :
    (0 : Nat) < 2 ∧
    (NTF.mergeUpdates [⟨"a", "X", "1999"⟩] [⟨"a", "", ""⟩, ⟨"b", "Y", "2001"⟩])[0]? =
      some ⟨"a", "X", "1999"⟩ := by
  refine ⟨by decide, ?_⟩
  have h := (C2_mergeUpdates_spec [⟨"a", "X", "1999"⟩]
    [⟨"a", "", ""⟩, ⟨"b", "Y", "2001"⟩]).2.1 0 (by decide)
  simpa using h

/-- The claim that the grids are computed once per process fails: every
`makeCards` call runs `calculateGrids()`, which appends a further batch
of 30 cells to each module-level array.  Two consecutive calls leave 60
rectangles in each grid. -/
theorem C7_counterexample :
    (∃ storeA pagesA,
      NTF.makeCards (fun _ _ => 0) [List.replicate 200 "x"] 2 (some 0) true "MOVIE"
        ⟨[], []⟩ = Except.ok (storeA, NTF.calculateGrids ⟨[], []⟩, pagesA))
    ∧ (NTF.calculateGrids ⟨[], []⟩).topGrid.length = 30
    ∧ (∃ storeB pagesB,
      NTF.makeCards (fun _ _ => 0) [List.replicate 200 "x"] 2 (some 0) true "MOVIE"
        (NTF.calculateGrids ⟨[], []⟩) =
        Except.ok (storeB, NTF.calculateGrids (NTF.calculateGrids ⟨[], []⟩), pagesB))
    ∧ (NTF.calculateGrids (NTF.calculateGrids ⟨[], []⟩)).topGrid.length = 60
    ∧ (NTF.calculateGrids (NTF.calculateGrids ⟨[], []⟩)).bottomGrid.length = 60 := by
  refine ⟨⟨_, _, NTF.makeCards_valid_eq (fun _ _ => 0) [List.replicate 200 "x"] 2 0
      (List.replicate 200 "x") true "MOVIE" ⟨[], []⟩ (by decide) rfl
      (by rw [List.length_replicate])⟩,
    by decide,
    ⟨_, _, NTF.makeCards_valid_eq (fun _ _ => 0) [List.replicate 200 "x"] 2 0
      (List.replicate 200 "x") true "MOVIE" (NTF.calculateGrids ⟨[], []⟩) (by decide) rfl
      (by rw [List.length_replicate])⟩,
    by decide, by decide⟩

/-- C7 (amended): each `calculateGrids` run appends exactly `R*C = 30`
cells per grid; after the first run (from the empty process-start state)
each grid holds exactly 30 pairwise non-overlapping Rects with the
title-row fill exactly on row 0, and every card generated by an
invocation of `makeCards` is filled against that invocation's grids,
which are not modified while its pages are generated. -/
theorem C7_amended_grids :
    (NTF.calculateGrids ⟨[], []⟩).topGrid.length = NTF.rows * NTF.cols
    ∧ (NTF.calculateGrids ⟨[], []⟩).bottomGrid.length = NTF.rows * NTF.cols
    ∧ NTF.pairwiseNonOverlap (NTF.calculateGrids ⟨[], []⟩).topGrid = true
    ∧ NTF.pairwiseNonOverlap (NTF.calculateGrids ⟨[], []⟩).bottomGrid = true
    ∧ NTF.titleFlagsRowZero (NTF.calculateGrids ⟨[], []⟩).topGrid = true
    ∧ NTF.titleFlagsRowZero (NTF.calculateGrids ⟨[], []⟩).bottomGrid = true
    ∧ (∀ s : NTF.GridState, NTF.calculateGrids s =
        ⟨s.topGrid ++ NTF.topGridCells, s.bottomGrid ++ NTF.bottomGridCells⟩)
    ∧ (∀ (rand : Nat → Nat → Nat) (store : List (List String)) (num : Int) (ref : Nat)
        (pool : List String) (useFree : Bool) (title : String) (grids : NTF.GridState),
        2 ≤ num → store[ref]? = some pool → 200 ≤ pool.length →
        ∃ store2 pages,
          NTF.makeCards rand store num (some ref) useFree title grids =
            Except.ok (store2, NTF.calculateGrids grids, pages)
          ∧ ∀ p ∈ pages, ∃ topData bottomData,
              p = ⟨title,
                NTF.fillBoxesGrid (NTF.calculateGrids grids).topGrid topData useFree,
                NTF.fillBoxesGrid (NTF.calculateGrids grids).bottomGrid bottomData useFree⟩) := by
  refine ⟨by decide, by decide, by decide, by decide, by decide, by decide,
    NTF.calculateGrids_eq, ?_⟩
  intro rand store num ref pool useFree title grids hnum hpool hlen
  have hok := NTF.makeCards_valid_eq rand store num ref pool useFree title grids hnum hpool hlen
  refine ⟨_, _, hok, ?_⟩
  intro p hp
  exact NTF.makeCardsLoop_pages_shape rand useFree title (NTF.calculateGrids grids)
    store.length _ 0 _ p hp

/-- Witness for the amended C7 at a concrete first invocation. -/
theorem C7_witness :
    ∃ store2 pages,
      NTF.makeCards (fun _ _ => 0) [List.replicate 200 "x"] 2 (some 0) true "MOVIE"
        ⟨[], []⟩ = Except.ok (store2, NTF.calculateGrids ⟨[], []⟩, pages)
      ∧ ∀ p ∈ pages, ∃ topData bottomData,
          p = ⟨"MOVIE",
            NTF.fillBoxesGrid (NTF.calculateGrids ⟨[], []⟩).topGrid topData true,
            NTF.fillBoxesGrid (NTF.calculateGrids ⟨[], []⟩).bottomGrid bottomData true⟩ :=
  C7_amended_grids.2.2.2.2.2.2.2 (fun _ _ => 0) [List.replicate 200 "x"] 2 0
    (List.replicate 200 "x") true "MOVIE" ⟨[], []⟩ (by decide) rfl
    (by rw [List.length_replicate])

/-- C9: with free space enabled, the cell at the fixed grid index
`17 = 3 * rowLimit + 2` renders the "Free Space" label (for every data
pool, so it never receives pool content), it is the only cell drawn at
that index, and the remaining informational cells per grid number
`R*C - C - 1 = 24`. -/
theorem C9_free_space_cell (grid : List NTF.Rect) (data : List String) :
    ((NTF.fillBoxesGrid grid data true).filter (fun c => c.gridIndex == 17)).map
        (fun c => c.content) = [some "Free Space"]
    ∧ ((NTF.fillBoxesGrid grid data true).filter (fun c => c.gridIndex != 17)).length
        = NTF.rows * NTF.cols - NTF.cols - 1
    ∧ 17 = 3 * NTF.rowLimit + 2 :=
  ⟨rfl, rfl, rfl⟩

/-- C8 (failing input): with `useFree = true` and a 24-element data
array, the informational cell at grid index 29 is drawn from
`data[24]`, which is out of range (`undefined`), and pool entry 12 is
never used: the free cell does not shift the data indices after it. -/
theorem C8_cell29_undefined :
    NTF.pool24.length = 24
    ∧ ((NTF.fillBoxesGrid (NTF.calculateGrids ⟨[], []⟩).topGrid NTF.pool24 true).filter
        (fun c => c.gridIndex == 29)).map (fun c => c.content) = [none]
    ∧ (∀ c ∈ NTF.fillBoxesGrid (NTF.calculateGrids ⟨[], []⟩).topGrid NTF.pool24 true,
        c.content ≠ some "12") := by
  decide

namespace NTF

lemma removeDeleted_foldl_acc (fileList : List String) :
    ∀ (l acc : List MovieEntry),
      l.foldl (fun movies cur =>
        if fileList.contains cur.filePath then movies ++ [cur] else movies) acc
      = acc ++ l.filter (fun m => fileList.contains m.filePath) := by
  intro l
  induction l with
  | nil => intro acc; simp
  | cons m t ih =>
    intro acc
    simp only [List.foldl_cons, List.filter_cons]
    cases h : fileList.contains m.filePath
    · rw [if_neg (by decide : ¬ (false = true)), if_neg (by decide : ¬ (false = true))]
      exact ih acc
    · rw [if_pos rfl, if_pos rfl, ih]
      simp

lemma removeDeleted_eq_filter (movieDB : MovieDB) (fileList : List String) :
    removeDeletedFilesFromDB movieDB fileList
      = movieDB.movies.filter (fun m => fileList.contains m.filePath) := by
  unfold removeDeletedFilesFromDB
  simpa using removeDeleted_foldl_acc fileList movieDB.movies []

lemma makeMovieEntry_ok (statOk : String → Bool) (f : String)
    (hstat : statOk f = true) (hok : isFilenameOK (pathBase f) = true) :
    makeMovieEntry statOk f = Except.ok ⟨f, "", ""⟩ := by
  have hne : f ≠ "" := by
    intro h
    rw [h] at hok
    exact absurd hok (by decide)
  simp [makeMovieEntry, hne, hstat, hok]

lemma addNew_foldl_acc (statOk : String → Bool) (known : List String) :
    ∀ (files : List String) (acc : List MovieEntry),
      (∀ f ∈ files, makeMovieEntry statOk f = Except.ok ⟨f, "", ""⟩) →
      files.foldl (fun acc2 filePath =>
        if !(known.contains filePath) then
          match makeMovieEntry statOk filePath with
          | Except.ok e => acc2 ++ [e]
          | Except.error _ => acc2
        else acc2) acc
      = acc ++ (files.filter (fun f => !(known.contains f))).map
          (fun f => (⟨f, "", ""⟩ : MovieEntry)) := by
  intro files
  induction files with
  | nil => intro acc _; simp
  | cons f t ih =>
    intro acc hall
    have hf := hall f (List.mem_cons_self f t)
    have ht : ∀ g ∈ t, makeMovieEntry statOk g = Except.ok ⟨g, "", ""⟩ :=
      fun g hg => hall g (List.mem_cons_of_mem f hg)
    cases hk : known.contains f
    · simp only [List.foldl_cons, List.filter_cons, hk, Bool.not_false, if_pos, hf]
      rw [ih _ ht]
      simp
    · simp only [List.foldl_cons, List.filter_cons, hk, Bool.not_true]
      rw [if_neg (by decide), ih _ ht]
      simp

lemma addNew_eq (statOk : String → Bool) (movieDB : MovieDB) (files : List String)
    (hall : ∀ f ∈ files, makeMovieEntry statOk f = Except.ok ⟨f, "", ""⟩) :
    addNewFilesToDB statOk movieDB files
      = movieDB.movies ++ (files.filter
          (fun f => !((movieDB.movies.map (fun m => m.filePath)).contains f))).map
          (fun f => (⟨f, "", ""⟩ : MovieEntry)) := by
  unfold addNewFilesToDB
  simp only []
  rw [addNew_foldl_acc statOk _ files [] hall]
  simp

lemma kept_contains_iff (movies : List MovieEntry) (files : List String) (f : String)
    (hf : f ∈ files) :
    ((movies.filter (fun m => files.contains m.filePath)).map
      (fun m => m.filePath)).contains f
    = (movies.map (fun m => m.filePath)).contains f := by
  rw [Bool.eq_iff_iff]
  rw [List.elem_iff, List.elem_iff]
  simp only [List.mem_map, List.mem_filter]
  constructor
  · rintro ⟨m, ⟨hm, _⟩, hp⟩
    exact ⟨m, hm, hp⟩
  · rintro ⟨m, hm, hp⟩
    refine ⟨m, ⟨hm, ?_⟩, hp⟩
    rw [hp]
    exact (List.elem_iff).2 hf

end NTF

/-- C6: reconciliation keeps, in their original relative order, exactly
the DB entries whose `filePath` occurs in the scan, drops the rest, and
appends a blank entry for every scanned path not already present by
`filePath` (the scanned files exist and carry acceptable names); and the
spec's concrete example holds. -/
theorem C6_reconcile_spec (statOk : String → Bool) (db : NTF.MovieDB)
    (files : List String)
    (hstat : ∀ f ∈ files, statOk f = true)
    (hok : ∀ f ∈ files, NTF.isFilenameOK (NTF.pathBase f) = true) :
    NTF.reconcile statOk db files =
      db.movies.filter (fun m => files.contains m.filePath)
        ++ (files.filter
            (fun f => !((db.movies.map (fun m => m.filePath)).contains f))).map
            (fun f => (⟨f, "", ""⟩ : NTF.MovieEntry))
    ∧ NTF.reconcile (fun _ => true)
        ⟨0, [⟨"a.jpg", "T", "1999"⟩, ⟨"c.jpg", "U", "2000"⟩]⟩ ["a.jpg", "b.jpg"]
        = [⟨"a.jpg", "T", "1999"⟩, ⟨"b.jpg", "", ""⟩] := by
  constructor
  · unfold NTF.reconcile
    simp only []
    rw [NTF.removeDeleted_eq_filter]
    rw [NTF.addNew_eq statOk _ files
      (fun f hf => NTF.makeMovieEntry_ok statOk f (hstat f hf) (hok f hf))]
    simp only []
    congr 1
    apply congrArg
    apply List.filter_congr
    intro f hf
    rw [NTF.kept_contains_iff db.movies files f hf]
  · decide

/-- Witness for C6 at the spec's concrete example. -/
theorem C6_witness :
    NTF.reconcile (fun _ => true)
        ⟨0, [⟨"a.jpg", "T", "1999"⟩, ⟨"c.jpg", "U", "2000"⟩]⟩ ["a.jpg", "b.jpg"]
      = [⟨"a.jpg", "T", "1999"⟩, ⟨"c.jpg", "U", "2000"⟩].filter
          (fun m => ["a.jpg", "b.jpg"].contains m.filePath)
        ++ (["a.jpg", "b.jpg"].filter
            (fun f => !(([⟨"a.jpg", "T", "1999"⟩,
                (⟨"c.jpg", "U", "2000"⟩ : NTF.MovieEntry)].map
                (fun m => m.filePath)).contains f))).map
            (fun f => (⟨f, "", ""⟩ : NTF.MovieEntry)) :=
  (C6_reconcile_spec (fun _ => true)
    ⟨0, [⟨"a.jpg", "T", "1999"⟩, ⟨"c.jpg", "U", "2000"⟩]⟩ ["a.jpg", "b.jpg"]
    (by decide) (by decide)).1

namespace NTF

lemma guessDetailsFromFilename_filePath (m : MovieEntry) :
    (guessDetailsFromFilename m).filePath = m.filePath := by
  unfold guessDetailsFromFilename
  simp only []
  split <;> split <;> rfl

lemma askYes_eq (m : MovieEntry) (a b : String) :
    askIfChangesNeeded (guessDetailsFromFilename m) (EditAction.yes a b)
      = Except.ok ⟨m.filePath, a, b⟩ := by
  unfold askIfChangesNeeded
  have h := guessDetailsFromFilename_filePath m
  cases hg : guessDetailsFromFilename m
  rw [hg] at h
  simp only [] at h
  simp [h]

lemma fillLoop_editsThenQuit (t y : Nat → String) (k : Nat) :
    ∀ (mv : List MovieEntry) (i : Nat) (acc : List MovieEntry),
      k - i < mv.length → i ≤ k →
      fillInMovieDetailsLoop (editsThenQuit t y k) i mv acc =
        Except.error ⟨acc ++ editedEntries t y i mv (k - i)
          ++ (mv[k - i]?.map guessDetailsFromFilename).toList⟩ := by
  intro mv
  induction mv with
  | nil => intro i acc h1 _; exact absurd h1 (by simp)
  | cons m rest ih =>
    intro i acc h1 hik
    rcases Nat.lt_or_ge i k with hlt | hge
    · have hki : k - i = (k - (i + 1)) + 1 := by omega
      rw [hki]
      simp only [fillInMovieDetailsLoop, editsThenQuit, if_pos hlt, askYes_eq]
      have h2 : k - (i + 1) < rest.length := by
        simp only [List.length_cons] at h1; omega
      have hrec := ih (i + 1) (acc ++ [(⟨m.filePath, t i, y i⟩ : MovieEntry)]) h2 (by omega)
      rw [hrec]
      simp only [editedEntries, List.getElem?_cons_succ]
      simp [List.append_assoc]
    · have hik' : i = k := by omega
      subst hik'
      have h0 : i - i = 0 := by omega
      rw [h0]
      simp only [fillInMovieDetailsLoop, editsThenQuit, if_neg (by omega : ¬ i < i),
        askIfChangesNeeded]
      simp [editedEntries]

lemma mergeUpdates_getElem_getD (E old : List MovieEntry) (j : Nat) (hj : j < old.length) :
    (mergeUpdates E old)[j]? =
      some ((E.find? (fun nm => nm.filePath == old[j].filePath)).getD old[j]) := by
  have h := mergeUpdates_getElem? E old j hj
  simp only [mergeChoice] at h
  exact h

lemma sessionRun_editsThenQuit (t y : Nat → String) (k : Nat) (db : List MovieEntry)
    (hk : k < (db.filter isIncomplete).length) :
    sessionRun (editsThenQuit t y k) db =
      (mergeUpdates (editedEntries t y 0 (db.filter isIncomplete) k
        ++ ((db.filter isIncomplete)[k]?.map guessDetailsFromFilename).toList) db, 0) := by
  unfold sessionRun fillInMovieDetails
  simp only []
  rw [fillLoop_editsThenQuit t y k (db.filter isIncomplete) 0 []
    (by simpa using hk) (Nat.zero_le k)]
  simp

end NTF

/-- C1 (counterexample to the claim as stated): over two incomplete
entries, editing the first and quitting on the second persists the
second entry as its filename-parse guess, not as its untouched original;
the process still exits cleanly. -/
theorem C1_counterexample :
    (NTF.sessionRun (NTF.editsThenQuit (fun _ => "Alpha") (fun _ => "1999") 1)
        NTF.dbC1).1
      ≠ [⟨"stills/alpha 1999.jpg", "Alpha", "1999"⟩, ⟨"stills/beta 2001.jpg", "", ""⟩]
    ∧ (NTF.sessionRun (NTF.editsThenQuit (fun _ => "Alpha") (fun _ => "1999") 1)
        NTF.dbC1).1
      = [⟨"stills/alpha 1999.jpg", "Alpha", "1999"⟩,
         ⟨"stills/beta 2001.jpg", "Beta", "2001"⟩]
    ∧ (NTF.sessionRun (NTF.editsThenQuit (fun _ => "Alpha") (fun _ => "1999") 1)
        NTF.dbC1).2 = 0 :=
  ⟨by decide, by decide, by decide⟩

/-- C1 (amended): an edit session of `k` completed edits followed by
quit throws a `QuitException` carrying the `k` edited entries plus the
filename-parse guess of the entry being edited when quit was chosen;
`main` catches it, merges that payload into the full list, persists the
merge, and the process exits cleanly (code 0).  Positionally: each
original whose `filePath` matches a carried entry is replaced by it, and
every other entry is untouched. -/
theorem C1_amended_quit_session (t y : Nat → String) (k : Nat)
    (db : List NTF.MovieEntry)
    (hk : k < (db.filter NTF.isIncomplete).length) :
    NTF.fillInMovieDetails (NTF.editsThenQuit t y k) (db.filter NTF.isIncomplete) =
      Except.error ⟨NTF.editedEntries t y 0 (db.filter NTF.isIncomplete) k
        ++ (((db.filter NTF.isIncomplete)[k]?).map NTF.guessDetailsFromFilename).toList⟩
    ∧ NTF.sessionRun (NTF.editsThenQuit t y k) db =
        (NTF.mergeUpdates (NTF.editedEntries t y 0 (db.filter NTF.isIncomplete) k
          ++ (((db.filter NTF.isIncomplete)[k]?).map NTF.guessDetailsFromFilename).toList)
          db, 0)
    ∧ (∀ j, (hj : j < db.length) →
        ((NTF.sessionRun (NTF.editsThenQuit t y k) db).1)[j]? =
          some (((NTF.editedEntries t y 0 (db.filter NTF.isIncomplete) k
            ++ (((db.filter NTF.isIncomplete)[k]?).map
              NTF.guessDetailsFromFilename).toList).find?
                (fun nm => nm.filePath == db[j].filePath)).getD db[j]))
    ∧ (∀ j, (hj : j < db.length) →
        db[j].filePath ∉ (NTF.editedEntries t y 0 (db.filter NTF.isIncomplete) k
          ++ (((db.filter NTF.isIncomplete)[k]?).map
            NTF.guessDetailsFromFilename).toList).map (fun m => m.filePath) →
        ((NTF.sessionRun (NTF.editsThenQuit t y k) db).1)[j]? = some db[j])
    ∧ (NTF.sessionRun (NTF.editsThenQuit t y k) db).2 = 0 := by
  have hsess := NTF.sessionRun_editsThenQuit t y k db hk
  refine ⟨?_, hsess, ?_, ?_, by rw [hsess]⟩
  · unfold NTF.fillInMovieDetails
    rw [NTF.fillLoop_editsThenQuit t y k (db.filter NTF.isIncomplete) 0 []
      (by simpa using hk) (Nat.zero_le k)]
    simp
  · intro j hj
    rw [hsess]
    exact NTF.mergeUpdates_getElem_getD _ db j hj
  · intro j hj hnot
    rw [hsess]
    rw [NTF.mergeUpdates_getElem_getD _ db j hj]
    have hfind : (NTF.editedEntries t y 0 (db.filter NTF.isIncomplete) k
        ++ (((db.filter NTF.isIncomplete)[k]?).map
          NTF.guessDetailsFromFilename).toList).find?
            (fun nm => nm.filePath == db[j].filePath) = none := by
      rw [List.find?_eq_none]
      intro x hx
      simp only [beq_iff_eq]
      intro hxp
      exact hnot (hxp ▸ List.mem_map_of_mem (fun m => m.filePath) hx)
    rw [hfind]
    rfl

/-- Witness for the amended C1 at a concrete two-entry session. -/
theorem C1_witness :
    1 < (NTF.dbC1.filter NTF.isIncomplete).length
    ∧ NTF.sessionRun (NTF.editsThenQuit (fun _ => "Alpha") (fun _ => "1999") 1)
        NTF.dbC1 =
      (NTF.mergeUpdates (NTF.editedEntries (fun _ => "Alpha") (fun _ => "1999") 0
          (NTF.dbC1.filter NTF.isIncomplete) 1
        ++ (((NTF.dbC1.filter NTF.isIncomplete)[1]?).map
          NTF.guessDetailsFromFilename).toList) NTF.dbC1, 0) :=
  ⟨by decide,
    (C1_amended_quit_session (fun _ => "Alpha") (fun _ => "1999") 1 NTF.dbC1
      (by decide)).2.1⟩
